import Mathlib

/-!
Verification development for the incremental staged-execution engine of the
image_data_processing repository.

The embedding models, from the source:
  * `get_folder_hash` (src/pipeline_config.py, lines 8-27): the weak content
    fingerprint of a directory, a truncated SHA-256 over the JSON dump of the
    sorted `(name, size)` list of the regular files directly in the directory;
  * `PipelineConfig` and `PipelineConfig.get_hash` (lines 29-54);
  * `make_stage_folder` (lines 56-92): the cache resolve operation;
  * `process_images` and `process_images_zoom_face` (src/main.py): the
    orchestrators, with the per-stage transforms (selecter, resizer,
    face_crop, single_face, zoom_face, filter, identify) treated as abstract
    collaborators, exactly as the spec's §2 declares them.

SHA-256 is implemented concretely (FIPS 180-4) over `Nat` with explicit
reduction mod 2^32, so that fingerprints and stage keys evaluate inside the
kernel; the implementation was validated against the standard test vectors.
Python's `hashlib.sha256(...).hexdigest()` is `hexdigest`, `json.dumps` with
`sort_keys=True` is `dumpsSorted` / `jsonPairList`, and Python string slicing
`[:8]` is `strTake`.
-/

set_option maxRecDepth 100000

/-! ## SHA-256 over byte lists -/

/-- 2^32, the modulus of SHA-256 word arithmetic. -/
def M32 : Nat := 4294967296

/-- Rotate a 32-bit word right by `n` bits. -/
def rotr32 (n x : Nat) : Nat := ((x >>> n) ||| (x <<< (32 - n))) % M32

/-- SHA-256 Ch function. -/
def shaCh (x y z : Nat) : Nat := (x &&& y) ^^^ ((x ^^^ 4294967295) &&& z)

/-- SHA-256 Maj function. -/
def shaMaj (x y z : Nat) : Nat := (x &&& y) ^^^ (x &&& z) ^^^ (y &&& z)

/-- SHA-256 big sigma 0. -/
def bSig0 (x : Nat) : Nat := rotr32 2 x ^^^ rotr32 13 x ^^^ rotr32 22 x

/-- SHA-256 big sigma 1. -/
def bSig1 (x : Nat) : Nat := rotr32 6 x ^^^ rotr32 11 x ^^^ rotr32 25 x

/-- SHA-256 small sigma 0. -/
def sSig0 (x : Nat) : Nat := rotr32 7 x ^^^ rotr32 18 x ^^^ (x >>> 3)

/-- SHA-256 small sigma 1. -/
def sSig1 (x : Nat) : Nat := rotr32 17 x ^^^ rotr32 19 x ^^^ (x >>> 10)

/-- The 64 SHA-256 round constants of FIPS 180-4 (decimal). -/
def shaK : List Nat :=
  [1116352408, 1899447441, 3049323471, 3921009573, 961987163, 1508970993,
   2453635748, 2870763221, 3624381080, 310598401, 607225278, 1426881987,
   1925078388, 2162078206, 2614888103, 3248222580, 3835390401, 4022224774,
   264347078, 604807628, 770255983, 1249150122, 1555081692, 1996064986,
   2554220882, 2821834349, 2952996808, 3210313671, 3336571891, 3584528711,
   113926993, 338241895, 666307205, 773529912, 1294757372, 1396182291,
   1695183700, 1986661051, 2177026350, 2456956037, 2730485921, 2820302411,
   3259730800, 3345764771, 3516065817, 3600352804, 4094571909, 275423344,
   430227734, 506948616, 659060556, 883997877, 958139571, 1322822218,
   1537002063, 1747873779, 1955562222, 2024104815, 2227730452, 2361852424,
   2428436474, 2756734187, 3204031479, 3329325298]

/-- The SHA-256 initial hash value of FIPS 180-4 (decimal). -/
def shaH0 : List Nat :=
  [1779033703, 3144134277, 1013904242, 2773480762,
   1359893119, 2600822924, 528734635, 1541459225]

/-- Big-endian packing of a byte list into 32-bit words. -/
def toWords32 : List Nat → List Nat
  | b0 :: b1 :: b2 :: b3 :: rest =>
      (((b0 * 256 + b1) * 256 + b2) * 256 + b3) :: toWords32 rest
  | _ => []

/-- Extend the 16-word message schedule by `n` further words. -/
def extendSchedule : Nat → List Nat → List Nat
  | 0, w => w
  | n + 1, w =>
      let len := w.length
      let t := (sSig1 (w.getD (len - 2) 0) + w.getD (len - 7) 0 +
                sSig0 (w.getD (len - 15) 0) + w.getD (len - 16) 0) % M32
      extendSchedule n (w ++ [t])

/-- The SHA-256 compression rounds: one round per remaining constant/word pair. -/
def shaRounds : List Nat → List Nat → List Nat → List Nat
  | k :: ks, w :: ws, [a, b, c, d, e, f, g, h] =>
      let t1 := (h + bSig1 e + shaCh e f g + k + w) % M32
      let t2 := (bSig0 a + shaMaj a b c) % M32
      shaRounds ks ws [(t1 + t2) % M32, a, b, c, (d + t1) % M32, e, f, g]
  | _, _, st => st

/-- Compress one 64-byte block into the running hash state. -/
def shaCompress (h : List Nat) (block : List Nat) : List Nat :=
  let w := extendSchedule 48 (toWords32 block)
  let st := shaRounds shaK w h
  h.zipWith (fun a b => (a + b) % M32) st

/-- Fold the compression function over `n` 64-byte blocks. -/
def shaBlocks : Nat → List Nat → List Nat → List Nat
  | 0, h, _ => h
  | n + 1, h, bs => shaBlocks n (shaCompress h (bs.take 64)) (bs.drop 64)

/-- SHA-256 message padding: 0x80, zeros, then the 64-bit big-endian bit length. -/
def shaPad (msg : List Nat) : List Nat :=
  let l := msg.length
  let zeros := (119 - l % 64) % 64
  msg ++ 0x80 :: (List.replicate zeros 0 ++
    (List.range 8).map fun i => ((8 * l) >>> (56 - 8 * i)) % 256)

/-- The eight 32-bit words of the SHA-256 digest of a byte list. -/
def sha256words (msg : List Nat) : List Nat :=
  let p := shaPad msg
  shaBlocks (p.length / 64) shaH0 p

/-- The sixteen lowercase hex digits. -/
def hexDigits : List Char := "0123456789abcdef".data

/-- The lowercase hex digit of a nibble. -/
def hexChar (n : Nat) : Char := hexDigits.getD n '0'

/-- A 32-bit word as exactly eight lowercase hex characters, most significant first. -/
def wordHex (w : Nat) : List Char :=
  (List.range 8).map fun i => hexChar ((w >>> (28 - 4 * i)) % 16)

/-- Python's `hashlib.sha256(msg).hexdigest()`: the 64-character lowercase hex
rendering of the SHA-256 digest of a byte list. -/
def hexdigest (msg : List Nat) : String :=
  String.mk ((sha256words msg).map wordHex).flatten

/-- UTF-8 encoding of one character, as the byte encoder of Python's
`str.encode()` produces it. -/
def utf8Char (c : Char) : List Nat :=
  let n := c.toNat
  if n < 128 then [n]
  else if n < 2048 then [192 ||| (n >>> 6), 128 ||| (n &&& 63)]
  else if n < 65536 then
    [224 ||| (n >>> 12), 128 ||| ((n >>> 6) &&& 63), 128 ||| (n &&& 63)]
  else
    [240 ||| (n >>> 18), 128 ||| ((n >>> 12) &&& 63),
     128 ||| ((n >>> 6) &&& 63), 128 ||| (n &&& 63)]

/-- Python's `str.encode()`: the UTF-8 bytes of a string. -/
def strBytes (s : String) : List Nat := (s.data.map utf8Char).flatten

/-- Python string slicing `s[:n]`: the first `n` characters. -/
def strTake (s : String) (n : Nat) : String := String.mk (s.data.take n)

/-! ## JSON serialization, as Python's `json.dumps` with default separators
emits it (`ensure_ascii=True`) -/

/-- Four fixed-width hex digits, for a JSON `\uXXXX` escape. -/
def hex4 (n : Nat) : List Char :=
  (List.range 4).map fun i => hexChar ((n >>> (12 - 4 * i)) % 16)

/-- How `json.dumps` (with its default `ensure_ascii=True`) renders one
character inside a JSON string. -/
def jsonEscapeChar (c : Char) : List Char :=
  if c = '\\' then ['\\', '\\']
  else if c = '"' then ['\\', '"']
  else if c.toNat = 8 then ['\\', 'b']
  else if c.toNat = 9 then ['\\', 't']
  else if c.toNat = 10 then ['\\', 'n']
  else if c.toNat = 12 then ['\\', 'f']
  else if c.toNat = 13 then ['\\', 'r']
  else if c.toNat < 32 || 126 < c.toNat then
    if c.toNat < 65536 then '\\' :: 'u' :: hex4 c.toNat
    else
      let v := c.toNat - 65536
      ('\\' :: 'u' :: hex4 (55296 + (v >>> 10))) ++
      ('\\' :: 'u' :: hex4 (56320 + (v &&& 1023)))
  else [c]

/-- A JSON string literal: the escaped text between double quotes. -/
def jsonQuote (s : String) : String :=
  String.mk ('"' :: (s.data.map jsonEscapeChar).flatten ++ ['"'])

/-- One `(name, size)` tuple as `json.dumps` renders it: `["name", size]`. -/
def jsonSizePair (p : String × Nat) : String :=
  "[" ++ jsonQuote p.1 ++ ", " ++ toString p.2 ++ "]"

/-- A list of `(name, size)` tuples as `json.dumps(content_list)` renders it. -/
def jsonPairList (ps : List (String × Nat)) : String :=
  "[" ++ String.intercalate ", " (ps.map jsonSizePair) ++ "]"

/-- A Python float as it occurs in the engine: the engine only ever serializes
its configuration floats into JSON, so a float is modeled by the decimal text
`json.dumps` emits for it (`2.5`, `0.6`, ...). -/
structure PyFloat where
  jrepr : String
deriving DecidableEq

/-- A JSON-serializable Python value of the kinds the engine puts into its
key dictionaries: strings, ints, and floats. -/
inductive JVal where
  | jstr : String → JVal
  | jint : Int → JVal
  | jfloat : PyFloat → JVal
deriving DecidableEq

/-- How `json.dumps` renders one dictionary value. -/
def JVal.dump : JVal → String
  | .jstr s => jsonQuote s
  | .jint n => toString n
  | .jfloat f => f.jrepr

/-- Python's code-point comparison of character lists (string `<=`). -/
def charListLe : List Char → List Char → Bool
  | [], _ => true
  | _ :: _, [] => false
  | a :: as, b :: bs =>
      if a.toNat < b.toNat then true
      else if b.toNat < a.toNat then false
      else charListLe as bs

/-- Python's string comparison `s <= t` (by code points). -/
def strLe (s t : String) : Bool := charListLe s.data t.data

/-- Insert into a sorted list (the insertion step of a stable sort). -/
def insertLe (le : α → α → Bool) (a : α) : List α → List α
  | [] => [a]
  | b :: l => if le a b then a :: b :: l else b :: insertLe le a l

/-- A stable comparison sort, standing in for Python's `sorted`. -/
def sortLe (le : α → α → Bool) : List α → List α
  | [] => []
  | a :: l => insertLe le a (sortLe le l)

/-- One dictionary entry as `json.dumps` renders it: `"key": value`. -/
def jsonDictEntry (kv : String × JVal) : String :=
  jsonQuote kv.1 ++ ": " ++ kv.2.dump

/-- Python's `json.dumps(d, sort_keys=True)` on a dictionary given as its
entry list: the entries sorted by key, rendered between braces. -/
def dumpsSorted (kvs : List (String × JVal)) : String :=
  "\x7b" ++
    String.intercalate ", " ((sortLe (fun a b => strLe a.1 b.1) kvs).map jsonDictEntry) ++
  "\x7d"

/-! ## Filesystem model

A directory tree as the engine observes it: a finite association list from
paths (component lists, as `pathlib.Path` parts) to directory listings. A
listing entry is a regular file — carrying the `stat` metadata the engine
reads (`st_size`, `st_mtime`) and its byte content, which the engine never
reads — or a subdirectory name. `sorted(folder_path.iterdir())` sorts the
entries of one directory by name (entries of one directory have distinct
names, so sorting paths and sorting names agree), and `mkdir(exist_ok=True)`
creates a directory when absent, requiring its parent to exist. -/

/-- A filesystem path, as its `pathlib.Path` components. -/
abbrev FsPath := List String

/-- One entry of a directory listing. -/
inductive Entry where
  | file (name : String) (size : Nat) (mtime : Nat) (content : List Nat)
  | subdir (name : String)
deriving DecidableEq

/-- The entry's name. -/
def Entry.name : Entry → String
  | .file n _ _ _ => n
  | .subdir n => n

/-- The `(entry.name, entry.stat().st_size)` tuple of a regular file;
`none` for a subdirectory (`entry.is_file()` is false). -/
def Entry.sizePair : Entry → Option (String × Nat)
  | .file n s _ _ => some (n, s)
  | .subdir _ => none

/-- The filesystem: the existing directories with their listings. -/
structure FS where
  dirs : List (FsPath × List Entry)
deriving DecidableEq

/-- The listing of a directory, `none` when the directory does not exist. -/
def FS.listing (fs : FS) (p : FsPath) : Option (List Entry) :=
  (fs.dirs.find? fun d => d.1 == p).map (·.2)

/-- Whether a directory exists. -/
def FS.existsDir (fs : FS) (p : FsPath) : Bool := (fs.listing p).isSome

/-- `pathlib`'s `.parent`: the path without its last component. -/
def parentDir (p : FsPath) : FsPath := p.dropLast

/-- The last component of a path. -/
def lastName (p : FsPath) : String := p.getLastD ""

/-- `p.mkdir(exist_ok=True)`: no-op when the directory exists, creation when
the parent exists (the new directory also appears in its parent's listing),
`none` (the raised `FileNotFoundError`) when the parent is missing too. -/
def FS.mkdir (fs : FS) (p : FsPath) : Option FS :=
  if fs.existsDir p then some fs
  else if fs.existsDir (parentDir p) then
    some ⟨(p, []) :: fs.dirs.map fun d =>
      if d.1 == parentDir p then (d.1, d.2 ++ [Entry.subdir (lastName p)]) else d⟩
  else none

/-! ## The fingerprint, the configuration, and the cache resolve operation
(src/pipeline_config.py) -/

/-- `get_folder_hash` (src/pipeline_config.py, lines 8-27): the sorted
directory listing is filtered to its regular files, each contributing its
`(name, size)` tuple; the JSON dump of that list is SHA-256 hashed and the
hex digest truncated to 8 characters. `none` models the exception raised
when the directory cannot be listed. -/
def get_folder_hash (fs : FS) (folder_path : FsPath) : Option String :=
  (fs.listing folder_path).map fun entries =>
    let content_list := (sortLe (fun a b => strLe a.name b.name) entries).filterMap Entry.sizePair
    strTake (hexdigest (strBytes (jsonPairList content_list))) 8

/-- `PipelineConfig` (src/pipeline_config.py, lines 29-38), a dataclass whose
fields all default to a non-`None` value. Python does not enforce the field
annotations, so each field may also be set to `None` (the unset sentinel that
`get_hash`/`make_stage_folder` drop); a field is therefore an `Option`. The
two float fields are `PyFloat`: the engine only ever serializes them. -/
structure PipelineConfig where
  target_size : Option Int := some 512
  file_pattern : Option String := some "*.jpg"
  prefix_separator : Option String := some "_"
  jpeg_quality : Option Int := some 95
  zoom_factor : Option PyFloat := some ⟨"2.5"⟩
  face_tolerance : Option PyFloat := some ⟨"0.6"⟩
  min_cluster_size : Option Int := some 3
deriving DecidableEq

/-- `dataclasses.asdict(config)`: the fields as a `(key, value)` list in
declaration order, a `none` value standing for Python `None`. -/
def PipelineConfig.asdict (c : PipelineConfig) : List (String × Option JVal) :=
  [("target_size", c.target_size.map JVal.jint),
   ("file_pattern", c.file_pattern.map JVal.jstr),
   ("prefix_separator", c.prefix_separator.map JVal.jstr),
   ("jpeg_quality", c.jpeg_quality.map JVal.jint),
   ("zoom_factor", c.zoom_factor.map JVal.jfloat),
   ("face_tolerance", c.face_tolerance.map JVal.jfloat),
   ("min_cluster_size", c.min_cluster_size.map JVal.jint)]

/-- The dict comprehension `{k: v for k, v in asdict(...).items() if v is not None}`. -/
def dropNone (l : List (String × Option JVal)) : List (String × JVal) :=
  l.filterMap fun kv => kv.2.map fun v => (kv.1, v)

/-- The key dictionary of `make_stage_folder` (src/pipeline_config.py, lines
70-72): the non-`None` config fields plus the `stage` and `input_hash`
entries. -/
def stage_config_dict (config : PipelineConfig) (stage_name input_hash : String) :
    List (String × JVal) :=
  dropNone config.asdict ++
    [("stage", JVal.jstr stage_name), ("input_hash", JVal.jstr input_hash)]

/-- The keying step of `make_stage_folder` (src/pipeline_config.py, lines
70-76): the key dictionary serialized with sorted keys, SHA-256 hashed, the
hex digest truncated to 8 characters. -/
def stage_key (config : PipelineConfig) (stage_name input_hash : String) : String :=
  strTake (hexdigest (strBytes (dumpsSorted (stage_config_dict config stage_name input_hash)))) 8

/-- `PipelineConfig.get_hash` (src/pipeline_config.py, lines 40-54): builds
its own copy of the same key dictionary, with `input_hash` freshly computed
from the input folder, and hashes it the same way. -/
def PipelineConfig.get_hash (self : PipelineConfig) (fs : FS) (stage_name : String)
    (input_path : FsPath) : Option String :=
  (get_folder_hash fs input_path).map fun ih =>
    let config_dict := dropNone self.asdict ++
      [("stage", JVal.jstr stage_name), ("input_hash", JVal.jstr ih)]
    strTake (hexdigest (strBytes (dumpsSorted config_dict))) 8

/-- What one call of `make_stage_folder` produces: the updated filesystem,
the returned stage folder path, and which branch returned — `reused = true`
exactly on the `"Using cached results"` return, `false` on the paths that
fall through to `folder_path.mkdir(exist_ok=True)`. -/
structure StageResult where
  fs : FS
  path : FsPath
  reused : Bool
deriving DecidableEq

/-- `make_stage_folder` (src/pipeline_config.py, lines 56-92). `fs` is the
filesystem over which the call starts; `recheckFs` is the filesystem at the
moment of the defensive second `get_folder_hash` call (equal to the state the
call itself produced so far whenever nothing mutates the input concurrently).
`none` models a raised exception (unlistable input directory, or `mkdir`
with a missing parent). -/
def make_stage_folder (fs recheckFs : FS) (base_path : FsPath) (stage_name : String)
    (config : PipelineConfig) (input_path : Option FsPath) : Option StageResult := do
  let processed_path := parentDir base_path ++ ["processed"]
  let fs1 ← fs.mkdir processed_path
  let input_folder := input_path.getD base_path
  let input_hash ← get_folder_hash fs1 input_folder
  let folder_hash := stage_key config stage_name input_hash
  let folder_name := stage_name ++ "_" ++ folder_hash
  let folder_path := processed_path ++ [folder_name]
  match fs1.listing folder_path with
  | some entries =>
      if entries.isEmpty then do
        let fs2 ← fs1.mkdir folder_path
        pure ⟨fs2, folder_path, false⟩
      else do
        let current_hash ← get_folder_hash recheckFs input_folder
        if current_hash == input_hash then
          pure ⟨fs1, folder_path, true⟩
        else do
          let fs2 ← fs1.mkdir folder_path
          pure ⟨fs2, folder_path, false⟩
  | none => do
      let fs2 ← fs1.mkdir folder_path
      pure ⟨fs2, folder_path, false⟩

/-! ## The orchestrators (src/main.py)

`process_images` and `process_images_zoom_face` run a fixed linear chain of
stage calls. The per-stage transforms are external collaborators (spec §2);
they are modeled as abstract filesystem transformers bundled in
`StageTransforms`, one per call site of src/main.py, taking exactly the
arguments main.py passes. The orchestrator's own observable actions are the
input-existence check, the ordered transform invocations (recorded in a
trace), and the file-count `glob` reads, which only feed `print` and are
elided. -/

/-- Helper for `pySplit`: accumulate the current piece (reversed) and flush
at each separator. -/
def pySplitAux (sep : Char) : List Char → List Char → List String
  | [], acc => [String.mk acc.reverse]
  | c :: rest, acc =>
      if c = sep then String.mk acc.reverse :: pySplitAux sep rest []
      else pySplitAux sep rest (c :: acc)

/-- Python's `str.split(sep)` with a one-character separator: the pieces
between separators, empty pieces kept, `[""]` for the empty string. -/
def pySplit (s : String) (sep : Char) : List String := pySplitAux sep s.data []

/-- Python's `str.isspace` on the whitespace `str.strip()` removes. -/
def pyIsSpace (c : Char) : Bool :=
  c == ' ' || c == '\t' || c == '\n' || c == '\r' || c == '\x0b' || c == '\x0c'

/-- Python's `str.strip()`: whitespace removed from both ends. -/
def pyStrip (s : String) : String :=
  String.mk ((s.data.dropWhile pyIsSpace).reverse.dropWhile pyIsSpace).reverse

/-- Python's `str.replace(old, "")` for a one-character `old`: every
occurrence removed. -/
def pyRemoveChar (s : String) (c : Char) : String :=
  String.mk (s.data.filter (· != c))

/-- `ImageSelectionConfig` (src/selecter.py, lines 8-14). -/
structure ImageSelectionConfig where
  target_size : Int := 512
  output_folder : String := "selections"
  file_pattern : String := "*.jpg"
  prefix_separator : String := "_"
deriving DecidableEq

/-- The external per-stage transforms, one field per call site in
src/main.py, each an abstract action on the filesystem. -/
structure StageTransforms where
  select_best_images : FsPath → ImageSelectionConfig → FS → FS
  batch_resize_images : FsPath → Int → Int → List String → String → FS → FS
  face_crop_process_folder : FsPath → String → Int → FS → FS
  filter_single_face_images : FsPath → String → FS → FS
  identify_process : FsPath → String → FS → FS
  zoom_process : FsPath → String → PyFloat → FS → FS
  filter_by_resolution : FsPath → Int → String → FS → FS

/-- The error a pipeline run can raise before its stages:
`ValueError(f"Input directory does not exist: ...")`. -/
inductive PipelineError where
  | inputNotFound (dir : FsPath)
deriving DecidableEq

/-- One orchestrator run: the final filesystem, the ordered trace of stage
transform invocations, and the raised error if any. -/
structure RunResult where
  fs : FS
  trace : List String
  error : Option PipelineError
deriving DecidableEq

/-- The keyword parameters of `process_images` (src/main.py, lines 24-35),
with their defaults. -/
structure ProcessImagesArgs where
  target_size : Int := 512
  file_pattern : String := "*.jpg"
  prefix_separator : String := "_"
  jpeg_quality : Int := 95
  selected_folder : String := "selected"
  resized_folder : String := "resized"
  face_cropped_folder : String := "face_cropped"
  single_face_folder : String := "single_face"
  identified_folder : String := "identified"
deriving DecidableEq

/-- `process_images` (src/main.py, lines 24-109): check the input directory
exists, then run selection (once per comma-separated pattern), resize, face
crop, single-face filtering and identification, unconditionally and in that
order. -/
def process_images (t : StageTransforms) (fs : FS) (input_dir : FsPath)
    (args : ProcessImagesArgs) : RunResult :=
  if ¬ fs.existsDir input_dir then ⟨fs, [], some (.inputNotFound input_dir)⟩
  else
    let patterns := (pySplit args.file_pattern ',').map pyStrip
    let fs1 := patterns.foldl (fun acc pat =>
      t.select_best_images input_dir
        ⟨args.target_size, args.selected_folder, pat, args.prefix_separator⟩ acc) fs
    let selected_path := input_dir ++ [args.selected_folder]
    let fs2 := t.batch_resize_images selected_path args.target_size args.jpeg_quality
      ((pySplit args.file_pattern ',').map (fun p => pyRemoveChar p '*')) args.resized_folder fs1
    let resized_path := input_dir ++ [args.resized_folder]
    let fs3 := t.face_crop_process_folder resized_path args.face_cropped_folder
      args.target_size fs2
    let face_cropped_path := input_dir ++ [args.face_cropped_folder]
    let fs4 := t.filter_single_face_images face_cropped_path args.single_face_folder fs3
    let single_face_path := input_dir ++ [args.single_face_folder]
    let fs5 := t.identify_process single_face_path args.identified_folder fs4
    ⟨fs5, patterns.map (fun _ => "select_best_images") ++
      ["batch_resize_images", "face_crop.process_folder",
       "filter_single_face_images", "identify.process_folder"], none⟩

/-- The keyword parameters of `process_images_zoom_face` (src/main.py,
lines 112-125), with their defaults. -/
structure ProcessImagesZoomFaceArgs where
  target_size : Int := 512
  file_pattern : String := "*.jpg"
  prefix_separator : String := "_"
  jpeg_quality : Int := 95
  zoom_factor : PyFloat := ⟨"1.5"⟩
  selected_folder : String := "1_selected"
  single_face_folder : String := "2_single_face"
  zoomed_folder : String := "3_zoomed"
  filtered_folder : String := "4_filtered"
  final_folder : String := "5_final"
  identified_folder : String := "6_identified"
deriving DecidableEq

/-- `process_images_zoom_face` (src/main.py, lines 112-202): check the input
directory exists, then run selection (once per pattern), single-face
filtering, face zoom, resolution filtering (`min_size = target_size // 3`,
Python floor division), final resize, face crop into `"final"`, and
identification, unconditionally and in that order. -/
def process_images_zoom_face (t : StageTransforms) (fs : FS) (input_dir : FsPath)
    (args : ProcessImagesZoomFaceArgs) : RunResult :=
  if ¬ fs.existsDir input_dir then ⟨fs, [], some (.inputNotFound input_dir)⟩
  else
    let patterns := (pySplit args.file_pattern ',').map pyStrip
    let fs1 := patterns.foldl (fun acc pat =>
      t.select_best_images input_dir
        ⟨args.target_size, args.selected_folder, pat, args.prefix_separator⟩ acc) fs
    let selected_path := input_dir ++ [args.selected_folder]
    let fs2 := t.filter_single_face_images selected_path args.single_face_folder fs1
    let single_face_path := input_dir ++ [args.single_face_folder]
    let fs3 := t.zoom_process single_face_path args.zoomed_folder args.zoom_factor fs2
    let zoomed_path := input_dir ++ [args.zoomed_folder]
    let fs4 := t.filter_by_resolution zoomed_path (Int.fdiv args.target_size 3)
      args.filtered_folder fs3
    let filtered_path := input_dir ++ [args.filtered_folder]
    let fs5 := t.batch_resize_images filtered_path args.target_size args.jpeg_quality
      [".jpg", ".jpeg", ".png", ".webp"] args.final_folder fs4
    let resized_path := input_dir ++ [args.final_folder]
    let fs6 := t.face_crop_process_folder resized_path "final" args.target_size fs5
    let final_path := input_dir ++ ["final"]
    let fs7 := t.identify_process final_path args.identified_folder fs6
    ⟨fs7, patterns.map (fun _ => "select_best_images") ++
      ["filter_single_face_images", "zoom_face.process_folder", "filter_by_resolution",
       "batch_resize_images", "face_crop.process_folder", "identify.process_folder"], none⟩

/-! ## Properties of the comparison and the sort -/

theorem charListLe_total : ∀ a b : List Char, charListLe a b = true ∨ charListLe b a = true := by
  intro a
  induction a with
  | nil => intro b; left; rfl
  | cons x xs ih =>
    intro b
    cases b with
    | nil => right; rfl
    | cons y ys =>
      simp only [charListLe]
      rcases Nat.lt_trichotomy x.toNat y.toNat with h | h | h
      · left; simp [h]
      · have h1 : ¬ x.toNat < y.toNat := by omega
        have h2 : ¬ y.toNat < x.toNat := by omega
        simp only [h1, h2, if_false, if_neg]
        exact ih ys
      · right; simp [h]

theorem charListLe_trans :
    ∀ a b c : List Char, charListLe a b = true → charListLe b c = true →
      charListLe a c = true := by
  intro a
  induction a with
  | nil => intro b c _ _; rfl
  | cons x xs ih =>
    intro b c hab hbc
    cases b with
    | nil => simp [charListLe] at hab
    | cons y ys =>
      cases c with
      | nil => simp [charListLe] at hbc
      | cons z zs =>
        simp only [charListLe] at hab hbc ⊢
        rcases Nat.lt_trichotomy x.toNat z.toNat with h | h | h
        · simp [h]
        · have h1 : ¬ x.toNat < z.toNat := by omega
          have h2 : ¬ z.toNat < x.toNat := by omega
          simp only [h1, h2, if_false, if_neg]
          split_ifs at hab hbc with p1 p2 q1 q2 <;> try omega
          all_goals exact ih ys zs hab hbc
        · exfalso
          split_ifs at hab hbc with p1 p2 q1 q2 <;> omega

theorem charListLe_antisymm :
    ∀ a b : List Char, charListLe a b = true → charListLe b a = true → a = b := by
  intro a
  induction a with
  | nil =>
    intro b _ hba
    cases b with
    | nil => rfl
    | cons y ys => simp [charListLe] at hba
  | cons x xs ih =>
    intro b hab hba
    cases b with
    | nil => simp [charListLe] at hab
    | cons y ys =>
      simp only [charListLe] at hab hba
      split_ifs at hab hba with p1 p2 <;> try omega
      have hn : x.toNat = y.toNat := by omega
      have hxy : x = y := Char.ext (UInt32.toNat.inj hn)
      rw [hxy, ih ys hab hba]

theorem strLe_total (s t : String) : strLe s t = true ∨ strLe t s = true :=
  charListLe_total s.data t.data

theorem strLe_trans {s t u : String} (h1 : strLe s t = true) (h2 : strLe t u = true) :
    strLe s u = true :=
  charListLe_trans s.data t.data u.data h1 h2

theorem strLe_antisymm {s t : String} (h1 : strLe s t = true) (h2 : strLe t s = true) :
    s = t := by
  cases s with
  | mk a =>
    cases t with
    | mk b => exact congrArg String.mk (charListLe_antisymm a b h1 h2)

theorem insertLe_perm (le : α → α → Bool) (a : α) (l : List α) :
    (insertLe le a l).Perm (a :: l) := by
  induction l with
  | nil => exact List.Perm.refl _
  | cons b t ih =>
    simp only [insertLe]
    by_cases h : le a b
    · simp [h]
    · simp only [h, if_neg, Bool.false_eq_true, not_false_eq_true]
      exact (ih.cons b).trans (List.Perm.swap a b t)

theorem sortLe_perm (le : α → α → Bool) (l : List α) : (sortLe le l).Perm l := by
  induction l with
  | nil => exact List.Perm.refl _
  | cons a t ih =>
    simp only [sortLe]
    exact (insertLe_perm le a (sortLe le t)).trans (ih.cons a)

theorem insertLe_pairwise (le : α → α → Bool)
    (total : ∀ a b, le a b = true ∨ le b a = true)
    (htrans : ∀ a b c, le a b = true → le b c = true → le a c = true)
    (a : α) (l : List α) (h : l.Pairwise fun x y => le x y = true) :
    (insertLe le a l).Pairwise fun x y => le x y = true := by
  induction l with
  | nil => simp [insertLe]
  | cons b t ih =>
    rcases List.pairwise_cons.1 h with ⟨hb, ht⟩
    simp only [insertLe]
    by_cases hab : le a b = true
    · rw [if_pos hab]
      refine List.pairwise_cons.2 ⟨?_, h⟩
      intro y hy
      rcases List.mem_cons.1 hy with rfl | hy
      · exact hab
      · exact htrans a b y hab (hb y hy)
    · rw [if_neg hab]
      refine List.pairwise_cons.2 ⟨?_, ih ht⟩
      intro y hy
      have hy' := (insertLe_perm le a t).mem_iff.1 hy
      rcases List.mem_cons.1 hy' with rfl | hy2
      · rcases total y b with h' | h'
        · exact absurd h' hab
        · exact h'
      · exact hb y hy2

theorem sortLe_pairwise (le : α → α → Bool)
    (total : ∀ a b, le a b = true ∨ le b a = true)
    (htrans : ∀ a b c, le a b = true → le b c = true → le a c = true)
    (l : List α) : (sortLe le l).Pairwise fun x y => le x y = true := by
  induction l with
  | nil => simp [sortLe]
  | cons a t ih => exact insertLe_pairwise le total htrans a (sortLe le t) ih

/-! ## C2: the fingerprint depends only on the file (name, size) pairs -/

theorem sizePair_name {e : Entry} {p : String × Nat} (h : e.sizePair = some p) :
    p.1 = e.name := by
  cases e with
  | file n s m c =>
      simp only [Entry.sizePair, Option.some.injEq] at h
      rw [← h]
      rfl
  | subdir n => simp [Entry.sizePair] at h

/-- Two directory listings with the same multiset of file `(name, size)`
tuples — and, as on a real filesystem, no duplicate entry names — sort and
filter to the same tuple list, so `get_folder_hash` gives them the same
digest. -/
theorem folder_hash_congr {fs1 fs2 : FS} {d1 d2 : FsPath} {l1 l2 : List Entry}
    (h1 : fs1.listing d1 = some l1) (h2 : fs2.listing d2 = some l2)
    (hn1 : l1.Pairwise fun a b => a.name ≠ b.name)
    (hn2 : l2.Pairwise fun a b => a.name ≠ b.name)
    (hp : (l1.filterMap Entry.sizePair).Perm (l2.filterMap Entry.sizePair)) :
    get_folder_hash fs1 d1 = get_folder_hash fs2 d2 := by
  have total : ∀ a b : Entry, strLe a.name b.name = true ∨ strLe b.name a.name = true :=
    fun a b => strLe_total a.name b.name
  have htr : ∀ a b c : Entry, strLe a.name b.name = true → strLe b.name c.name = true →
      strLe a.name c.name = true := fun _ _ _ hab hbc => strLe_trans hab hbc
  have symmNe : ∀ {x y : Entry}, x.name ≠ y.name → y.name ≠ x.name :=
    fun h e => h e.symm
  have sorted1 := sortLe_pairwise (fun a b : Entry => strLe a.name b.name) total htr l1
  have sorted2 := sortLe_pairwise (fun a b : Entry => strLe a.name b.name) total htr l2
  have ne1 : (sortLe (fun a b : Entry => strLe a.name b.name) l1).Pairwise
      (fun a b => a.name ≠ b.name) :=
    ((sortLe_perm _ l1).pairwise_iff symmNe).2 hn1
  have ne2 : (sortLe (fun a b : Entry => strLe a.name b.name) l2).Pairwise
      (fun a b => a.name ≠ b.name) :=
    ((sortLe_perm _ l2).pairwise_iff symmNe).2 hn2
  have sp1 : ((sortLe (fun a b : Entry => strLe a.name b.name) l1).filterMap
      Entry.sizePair).Pairwise (fun p q : String × Nat => strLe p.1 q.1 = true ∧ p.1 ≠ q.1) := by
    refine List.Pairwise.filterMap Entry.sizePair ?_ (sorted1.and ne1)
    intro a a' hrel b hb b' hb'
    rw [sizePair_name hb, sizePair_name hb']
    exact hrel
  have sp2 : ((sortLe (fun a b : Entry => strLe a.name b.name) l2).filterMap
      Entry.sizePair).Pairwise (fun p q : String × Nat => strLe p.1 q.1 = true ∧ p.1 ≠ q.1) := by
    refine List.Pairwise.filterMap Entry.sizePair ?_ (sorted2.and ne2)
    intro a a' hrel b hb b' hb'
    rw [sizePair_name hb, sizePair_name hb']
    exact hrel
  have permPairs :
      ((sortLe (fun a b : Entry => strLe a.name b.name) l1).filterMap Entry.sizePair).Perm
      ((sortLe (fun a b : Entry => strLe a.name b.name) l2).filterMap Entry.sizePair) :=
    (((sortLe_perm _ l1).filterMap Entry.sizePair).trans hp).trans
      ((sortLe_perm _ l2).filterMap Entry.sizePair).symm
  haveI : IsAntisymm (String × Nat) (fun p q => strLe p.1 q.1 = true ∧ p.1 ≠ q.1) :=
    ⟨fun p q hpq hqp => (hpq.2 (strLe_antisymm hpq.1 hqp.1)).elim⟩
  have pairsEq :
      (sortLe (fun a b : Entry => strLe a.name b.name) l1).filterMap Entry.sizePair =
      (sortLe (fun a b : Entry => strLe a.name b.name) l2).filterMap Entry.sizePair :=
    List.eq_of_perm_of_sorted permPairs sp1 sp2
  simp only [get_folder_hash, h1, h2, Option.map_some']
  rw [pairsEq]

/-- C2: `get_folder_hash` is determined solely by the `(name, size)` pairs of
the regular files directly inside the directory. Any two directories — in any
two filesystem states — whose listings carry the same file `(name, size)`
tuples receive identical digests, regardless of enumeration order, file
modification times, file byte content, or the presence and contents of
subdirectories (no recursion: the fingerprint reads only the directory's own
listing). Entry names within one listing are distinct, as on a real
filesystem. -/
theorem get_folder_hash_determined_by_name_size_pairs
    {fs1 fs2 : FS} {d1 d2 : FsPath} {l1 l2 : List Entry}
    (h1 : fs1.listing d1 = some l1) (h2 : fs2.listing d2 = some l2)
    (hn1 : l1.Pairwise fun a b => a.name ≠ b.name)
    (hn2 : l2.Pairwise fun a b => a.name ≠ b.name)
    (hp : (l1.filterMap Entry.sizePair).Perm (l2.filterMap Entry.sizePair)) :
    get_folder_hash fs1 d1 = get_folder_hash fs2 d2 :=
  folder_hash_congr h1 h2 hn1 hn2 hp

/-- Witness for C2 at a concrete input: the same three `(name, size)` pairs
in a different enumeration order, with different modification times, changed
byte contents (sizes preserved), and different subdirectories, fingerprint
identically. -/
theorem get_folder_hash_determined_by_name_size_pairs_witness :
    get_folder_hash
      ⟨[(["in"], [Entry.file "b.jpg" 200 5 [1, 2], Entry.subdir "z",
                  Entry.file "a.jpg" 100 7 [0], Entry.file "c.png" 50 3 []])]⟩ ["in"] =
    get_folder_hash
      ⟨[(["other"], [Entry.subdir "q", Entry.file "a.jpg" 100 99 [9, 9, 9],
                     Entry.file "c.png" 50 0 [4], Entry.file "b.jpg" 200 0 [3],
                     Entry.subdir "r"])]⟩ ["other"] :=
  @get_folder_hash_determined_by_name_size_pairs
    ⟨[(["in"], [Entry.file "b.jpg" 200 5 [1, 2], Entry.subdir "z",
                Entry.file "a.jpg" 100 7 [0], Entry.file "c.png" 50 3 []])]⟩
    ⟨[(["other"], [Entry.subdir "q", Entry.file "a.jpg" 100 99 [9, 9, 9],
                   Entry.file "c.png" 50 0 [4], Entry.file "b.jpg" 200 0 [3],
                   Entry.subdir "r"])]⟩
    ["in"] ["other"]
    [Entry.file "b.jpg" 200 5 [1, 2], Entry.subdir "z",
     Entry.file "a.jpg" 100 7 [0], Entry.file "c.png" 50 3 []]
    [Entry.subdir "q", Entry.file "a.jpg" 100 99 [9, 9, 9],
     Entry.file "c.png" 50 0 [4], Entry.file "b.jpg" 200 0 [3], Entry.subdir "r"]
    (by decide) (by decide) (by decide) (by decide) (by decide)

/-! ## The digest always has 64 hex characters, keys 8 -/

theorem shaRounds_length :
    ∀ ks ws st : List Nat, st.length = 8 → (shaRounds ks ws st).length = 8 := by
  intro ks
  induction ks with
  | nil => intro ws st h; cases ws <;> simpa [shaRounds] using h
  | cons k ks ih =>
    intro ws st h
    cases ws with
    | nil => simpa [shaRounds] using h
    | cons w ws =>
      rcases st with _ | ⟨a, st⟩; · simp at h
      rcases st with _ | ⟨b, st⟩; · simp at h
      rcases st with _ | ⟨c, st⟩; · simp at h
      rcases st with _ | ⟨d, st⟩; · simp at h
      rcases st with _ | ⟨e, st⟩; · simp at h
      rcases st with _ | ⟨f, st⟩; · simp at h
      rcases st with _ | ⟨g, st⟩; · simp at h
      rcases st with _ | ⟨hh, st⟩; · simp at h
      rcases st with _ | ⟨i, st⟩
      · simp only [shaRounds]
        exact ih ws _ rfl
      · simp at h

theorem shaCompress_length (h block : List Nat) (hl : h.length = 8) :
    (shaCompress h block).length = 8 := by
  simp only [shaCompress, List.length_zipWith, shaRounds_length shaK _ h hl, hl]
  omega

theorem shaBlocks_length :
    ∀ (n : Nat) (h bs : List Nat), h.length = 8 → (shaBlocks n h bs).length = 8 := by
  intro n
  induction n with
  | zero => intro h bs hl; simpa [shaBlocks] using hl
  | succ n ih =>
    intro h bs hl
    simp only [shaBlocks]
    exact ih _ _ (shaCompress_length h _ hl)

theorem sha256words_length (msg : List Nat) : (sha256words msg).length = 8 :=
  shaBlocks_length _ shaH0 _ rfl

theorem wordHex_length (w : Nat) : (wordHex w).length = 8 := by
  simp [wordHex]

theorem hexdigest_length (msg : List Nat) : (hexdigest msg).length = 64 := by
  have h : ∀ l : List Nat, ((l.map wordHex).flatten).length = 8 * l.length := by
    intro l
    induction l with
    | nil => simp
    | cons x t ih => simp [ih, wordHex_length, Nat.mul_succ, Nat.add_comm]
  show ((sha256words msg).map wordHex).flatten.length = 64
  rw [h, sha256words_length]

theorem hexChar_mem (n : Nat) (h : n < 16) : hexChar n ∈ hexDigits := by
  interval_cases n <;> decide

theorem hexdigest_chars (msg : List Nat) :
    ∀ c ∈ (hexdigest msg).data, c ∈ hexDigits := by
  intro c hc
  have hc' : c ∈ ((sha256words msg).map wordHex).flatten := hc
  rcases List.mem_flatten.1 hc' with ⟨l, hl, hcl⟩
  rcases List.mem_map.1 hl with ⟨w, _, rfl⟩
  rcases List.mem_map.1 hcl with ⟨i, _, rfl⟩
  exact hexChar_mem _ (Nat.mod_lt _ (by omega))

theorem strTake_length (s : String) (n : Nat) :
    (strTake s n).length = min n s.length := by
  show (s.data.take n).length = min n s.data.length
  simp

theorem stage_key_length (config : PipelineConfig) (stage_name input_hash : String) :
    (stage_key config stage_name input_hash).length = 8 := by
  simp only [stage_key, strTake_length, hexdigest_length]
  omega

theorem stage_key_chars (config : PipelineConfig) (stage_name input_hash : String) :
    ∀ c ∈ (stage_key config stage_name input_hash).data, c ∈ hexDigits := by
  intro c hc
  have : c ∈ (hexdigest (strBytes (dumpsSorted (stage_config_dict config stage_name input_hash)))).data :=
    List.mem_of_mem_take hc
  exact hexdigest_chars _ c this

/-! ## C3: key derivation is canonical and deterministic -/

/-- Serializing a key dictionary with sorted keys is independent of the
entry (insertion) order, as long as keys are distinct. -/
theorem dumpsSorted_perm_invariant {kvs1 kvs2 : List (String × JVal)}
    (hn : kvs1.Pairwise fun a b => a.1 ≠ b.1)
    (hp : kvs1.Perm kvs2) : dumpsSorted kvs1 = dumpsSorted kvs2 := by
  have total : ∀ a b : String × JVal, strLe a.1 b.1 = true ∨ strLe b.1 a.1 = true :=
    fun a b => strLe_total a.1 b.1
  have htr : ∀ a b c : String × JVal, strLe a.1 b.1 = true → strLe b.1 c.1 = true →
      strLe a.1 c.1 = true := fun _ _ _ hab hbc => strLe_trans hab hbc
  have symmNe : ∀ {x y : String × JVal}, x.1 ≠ y.1 → y.1 ≠ x.1 := fun h e => h e.symm
  have hn2 : kvs2.Pairwise fun a b => a.1 ≠ b.1 := (hp.pairwise_iff symmNe).1 hn
  have sorted1 := sortLe_pairwise (fun a b : String × JVal => strLe a.1 b.1) total htr kvs1
  have sorted2 := sortLe_pairwise (fun a b : String × JVal => strLe a.1 b.1) total htr kvs2
  have ne1 : (sortLe (fun a b : String × JVal => strLe a.1 b.1) kvs1).Pairwise
      (fun a b => a.1 ≠ b.1) := ((sortLe_perm _ kvs1).pairwise_iff symmNe).2 hn
  have ne2 : (sortLe (fun a b : String × JVal => strLe a.1 b.1) kvs2).Pairwise
      (fun a b => a.1 ≠ b.1) := ((sortLe_perm _ kvs2).pairwise_iff symmNe).2 hn2
  have permS : (sortLe (fun a b : String × JVal => strLe a.1 b.1) kvs1).Perm
      (sortLe (fun a b : String × JVal => strLe a.1 b.1) kvs2) :=
    ((sortLe_perm _ kvs1).trans hp).trans (sortLe_perm _ kvs2).symm
  haveI : IsAntisymm (String × JVal)
      (fun a b => strLe a.1 b.1 = true ∧ a.1 ≠ b.1) :=
    ⟨fun p q hpq hqp => (hpq.2 (strLe_antisymm hpq.1 hqp.1)).elim⟩
  have sortedEq : sortLe (fun a b : String × JVal => strLe a.1 b.1) kvs1 =
      sortLe (fun a b : String × JVal => strLe a.1 b.1) kvs2 :=
    List.eq_of_perm_of_sorted permS (sorted1.and ne1) (sorted2.and ne2)
  unfold dumpsSorted
  rw [sortedEq]

/-- C3: key derivation. `PipelineConfig.get_hash` agrees with the keying step
of `make_stage_folder` (`stage_key`): both build the mapping of the config
fields with `None`-valued fields dropped, add the `stage` and `input_hash`
entries, serialize with sorted keys (`json.dumps(..., sort_keys=True)`),
SHA-256 hash and truncate to 8 characters. The serialization is canonical:
any insertion order of the entries gives the same key. The key always has
exactly 8 characters, and — the embedding being a pure function — is
byte-identical for fixed `(stage_name, config, input_fingerprint)` across
repeated calls, processes and runs. -/
theorem get_hash_canonical_and_deterministic (c : PipelineConfig) (fs : FS)
    (stage_name : String) (input_path : FsPath) :
    PipelineConfig.get_hash c fs stage_name input_path =
      (get_folder_hash fs input_path).map (stage_key c stage_name) ∧
    (∀ input_hash : String,
      stage_key c stage_name input_hash =
        strTake (hexdigest (strBytes (dumpsSorted
          (dropNone c.asdict ++
            [("stage", JVal.jstr stage_name), ("input_hash", JVal.jstr input_hash)])))) 8) ∧
    (∀ input_hash : String, ∀ kvs : List (String × JVal),
      (stage_config_dict c stage_name input_hash).Pairwise (fun a b => a.1 ≠ b.1) →
      (stage_config_dict c stage_name input_hash).Perm kvs →
      strTake (hexdigest (strBytes (dumpsSorted kvs))) 8 =
        stage_key c stage_name input_hash) ∧
    (∀ input_hash : String, (stage_key c stage_name input_hash).length = 8) := by
  refine ⟨rfl, fun _ => rfl, ?_, fun ih => stage_key_length c stage_name ih⟩
  intro ih kvs hn hp
  unfold stage_key
  rw [dumpsSorted_perm_invariant hn hp]

/-! ## What `mkdir` does to the filesystem -/

theorem mkdir_of_exists {fs : FS} {p : FsPath} (h : fs.existsDir p = true) :
    fs.mkdir p = some fs := by
  simp [FS.mkdir, h]

theorem mkdir_listing_new {fs fs' : FS} {p : FsPath}
    (hne : fs.existsDir p = false) (h : fs.mkdir p = some fs') (q : FsPath) :
    fs'.listing q =
      if q = p then some []
      else if q = parentDir p then
        (fs.listing q).map fun es => es ++ [Entry.subdir (lastName p)]
      else fs.listing q := by
  unfold FS.mkdir at h
  rw [hne] at h
  simp only [Bool.false_eq_true, if_false] at h
  by_cases hpar : fs.existsDir (parentDir p) = true
  · rw [if_pos hpar] at h
    cases h
    show FS.listing _ q = _
    unfold FS.listing
    by_cases hqp : q = p
    · subst hqp
      simp [List.find?]
    · have hbeq : (p == q) = false := beq_eq_false_iff_ne.2 fun e => hqp e.symm
      simp only [List.find?, hbeq]
      have hkey : (fun d : FsPath × List Entry => d.1 == q) ∘
          (fun d : FsPath × List Entry =>
            if d.1 == parentDir p then (d.1, d.2 ++ [Entry.subdir (lastName p)]) else d) =
          fun d : FsPath × List Entry => d.1 == q := by
        funext d
        by_cases hd : (d.1 == parentDir p) = true <;> simp [Function.comp, hd]
      rw [List.find?_map, hkey]
      rw [if_neg hqp]
      rcases hfind : fs.dirs.find? (fun d => d.1 == q) with _ | d
      · simp [hfind]
      · have hd1 : d.1 = q := by
          have := List.find?_some hfind
          exact eq_of_beq this
        by_cases hqpar : q = parentDir p
        · rw [if_pos hqpar]
          simp only [hfind, Option.map_some']
          rw [if_pos (by rw [hd1, hqpar]; exact beq_self_eq_true _)]
        · rw [if_neg hqpar]
          simp only [hfind, Option.map_some']
          rw [if_neg (by rw [hd1]; exact fun e => hqpar (eq_of_beq e))]
  · rw [if_neg hpar] at h
    cases h

/-! ## Characterization of the cache resolve operation -/

/-- What one successful `make_stage_folder` call does, given the processed
root resolved to `fs1` and the initial fingerprint `ih`: the returned path is
the candidate `processed/{stage_name}_{stage_key}`; the call reuses exactly
when the candidate exists, is non-empty, and the defensive second fingerprint
(read from `recheckFs`) equals `ih`; a reuse writes nothing beyond the
processed root, and a non-reuse creates the candidate with
`mkdir(exist_ok=True)`. -/
theorem make_stage_folder_spec
    {fs recheckFs fs1 : FS} {base_path : FsPath} {stage_name : String}
    {config : PipelineConfig} {input_path : Option FsPath} {ih : String} {r : StageResult}
    (hmk : fs.mkdir (parentDir base_path ++ ["processed"]) = some fs1)
    (hih : get_folder_hash fs1 (input_path.getD base_path) = some ih)
    (hr : make_stage_folder fs recheckFs base_path stage_name config input_path = some r) :
    r.path = (parentDir base_path ++ ["processed"]) ++
      [stage_name ++ "_" ++ stage_key config stage_name ih] ∧
    (r.reused = true ↔
      (∃ es, fs1.listing r.path = some es ∧ es ≠ [] ∧
        get_folder_hash recheckFs (input_path.getD base_path) = some ih)) ∧
    (r.reused = true → r.fs = fs1) ∧
    (r.reused = false → fs1.mkdir r.path = some r.fs) := by
  simp only [make_stage_folder] at hr
  rw [hmk] at hr
  simp only [Option.bind_eq_bind, Option.some_bind] at hr
  rw [hih] at hr
  simp only [Option.some_bind] at hr
  rcases hls : fs1.listing ((parentDir base_path ++ ["processed"]) ++
      [stage_name ++ "_" ++ stage_key config stage_name ih]) with _ | es
  · rw [hls] at hr
    rcases hmk2 : fs1.mkdir ((parentDir base_path ++ ["processed"]) ++
        [stage_name ++ "_" ++ stage_key config stage_name ih]) with _ | fs2
    · rw [hmk2] at hr; cases hr
    · rw [hmk2] at hr
      simp only [Option.some_bind, Option.pure_def, Option.some.injEq] at hr
      subst hr
      refine ⟨rfl, ?_, ?_, ?_⟩
      · constructor
        · intro h; cases h
        · rintro ⟨es', hes', _, _⟩
          rw [hls] at hes'; cases hes'
      · intro h; cases h
      · intro _; exact hmk2
  · rw [hls] at hr
    rcases es with _ | ⟨e, es⟩
    · simp only [List.isEmpty_nil, if_true] at hr
      rcases hmk2 : fs1.mkdir ((parentDir base_path ++ ["processed"]) ++
          [stage_name ++ "_" ++ stage_key config stage_name ih]) with _ | fs2
      · rw [hmk2] at hr; cases hr
      · rw [hmk2] at hr
        simp only [Option.some_bind, Option.pure_def, Option.some.injEq] at hr
        subst hr
        refine ⟨rfl, ?_, ?_, ?_⟩
        · constructor
          · intro h; cases h
          · rintro ⟨es', hes', hne', _⟩
            rw [hls] at hes'
            cases hes'
            exact (hne' rfl).elim
        · intro h; cases h
        · intro _; exact hmk2
    · simp only [List.isEmpty_cons, if_false, Bool.false_eq_true] at hr
      rcases hcur : get_folder_hash recheckFs (input_path.getD base_path) with _ | cur
      · rw [hcur] at hr; cases hr
      · rw [hcur] at hr
        simp only [Option.some_bind] at hr
        by_cases hbe : (cur == ih) = true
        · rw [if_pos hbe] at hr
          simp only [Option.pure_def, Option.some.injEq] at hr
          subst hr
          have hcurih : cur = ih := eq_of_beq hbe
          refine ⟨rfl, ?_, fun _ => rfl, ?_⟩
          · constructor
            · intro _
              exact ⟨e :: es, hls, by simp, by rw [hcurih]⟩
            · intro _; rfl
          · intro h; cases h
        · rw [if_neg hbe] at hr
          rcases hmk2 : fs1.mkdir ((parentDir base_path ++ ["processed"]) ++
              [stage_name ++ "_" ++ stage_key config stage_name ih]) with _ | fs2
          · rw [hmk2] at hr; cases hr
          · rw [hmk2] at hr
            simp only [Option.some_bind, Option.pure_def, Option.some.injEq] at hr
            subst hr
            refine ⟨rfl, ?_, ?_, ?_⟩
            · constructor
              · intro h; cases h
              · rintro ⟨es', _, _, hcur'⟩
                cases hcur'
                exact (hbe (beq_self_eq_true _)).elim
            · intro h; cases h
            · intro _; exact hmk2

/-- A successful `make_stage_folder` call implies the processed root resolved
and the initial fingerprint computed. -/
theorem make_stage_folder_some_inv
    {fs recheckFs : FS} {base_path : FsPath} {stage_name : String}
    {config : PipelineConfig} {input_path : Option FsPath} {r : StageResult}
    (hr : make_stage_folder fs recheckFs base_path stage_name config input_path = some r) :
    ∃ fs1 ih, fs.mkdir (parentDir base_path ++ ["processed"]) = some fs1 ∧
      get_folder_hash fs1 (input_path.getD base_path) = some ih := by
  simp only [make_stage_folder] at hr
  rcases hmk : fs.mkdir (parentDir base_path ++ ["processed"]) with _ | fs1
  · rw [hmk] at hr; simp at hr
  · rw [hmk] at hr
    simp only [Option.bind_eq_bind, Option.some_bind] at hr
    rcases hih : get_folder_hash fs1 (input_path.getD base_path) with _ | ih
    · rw [hih] at hr; simp at hr
    · exact ⟨fs1, ih, rfl, hih⟩

/-! ## C1: the cache reuse decision, and the collision counterexample -/

/-- Filesystem at the start of the collision scenario: the input directory
`root/data` holds one file `a` of size 15816 (fingerprint `f87864b4`), and
the candidate cache directory `root/processed/resize_d63371cc` — keyed by
that fingerprint under the default config and stage `resize` — already
exists and is non-empty. -/
def collisionFsA : FS :=
  ⟨[(["root"], [Entry.subdir "data", Entry.subdir "processed"]),
    (["root", "data"], [Entry.file "a" 15816 0 []]),
    (["root", "processed"], [Entry.subdir "resize_d63371cc"]),
    (["root", "processed", "resize_d63371cc"], [Entry.file "out.jpg" 10 0 []])]⟩

/-- The filesystem at the defensive re-check in the collision scenario: a
concurrent mutation replaced the input file `a` (size 15816) by a file `a`
of size 73381 — a different `(name, size)` set whose truncated 8-character
SHA-256 fingerprint nevertheless also equals `f87864b4`. -/
def collisionFsB : FS :=
  ⟨[(["root"], [Entry.subdir "data", Entry.subdir "processed"]),
    (["root", "data"], [Entry.file "a" 73381 1 []]),
    (["root", "processed"], [Entry.subdir "resize_d63371cc"]),
    (["root", "processed", "resize_d63371cc"], [Entry.file "out.jpg" 10 0 []])]⟩

/-- Counterexample to C1 as stated: a call of `make_stage_folder` that
returns a cache hit (`reused = true`) although the input directory's
`(name, size)` set changed between the initial fingerprint and the defensive
re-check — the two distinct listings `[("a", 15816)]` and `[("a", 73381)]`
collide on the 8-character truncated SHA-256 fingerprint, so the guarantee
"a cache hit implies the input's `(name, size)` set is unchanged" fails. -/
theorem make_stage_folder_hit_despite_changed_name_size_set :
    make_stage_folder collisionFsA collisionFsB ["root", "data"] "resize" {} none =
      some ⟨collisionFsA, ["root", "processed", "resize_d63371cc"], true⟩ ∧
    (collisionFsA.listing ["root", "data"]).map (fun es => es.filterMap Entry.sizePair) ≠
      (collisionFsB.listing ["root", "data"]).map (fun es => es.filterMap Entry.sizePair) :=
  ⟨by decide, by decide⟩

/-- C1 (amended): one call of `make_stage_folder` returns its candidate with
`reused = true` exactly when the candidate directory already exists, is
non-empty, and the defensive second fingerprint of the input directory equals
the fingerprint computed at the start of the call; in every other case it
creates the candidate directory if absent (`mkdir(exist_ok=True)`, which
never clears an existing directory) and returns it with `reused = false`. A
cache hit implies the input directory's truncated-SHA-256 *fingerprint* is
unchanged between the two reads — by the collision counterexample this
cannot be strengthened to the `(name, size)` set itself. -/
theorem make_stage_folder_cache_decision
    {fs recheckFs fs1 : FS} {base_path : FsPath} {stage_name : String}
    {config : PipelineConfig} {input_path : Option FsPath} {ih : String} {r : StageResult}
    (hmk : fs.mkdir (parentDir base_path ++ ["processed"]) = some fs1)
    (hih : get_folder_hash fs1 (input_path.getD base_path) = some ih)
    (hr : make_stage_folder fs recheckFs base_path stage_name config input_path = some r) :
    r.path = (parentDir base_path ++ ["processed"]) ++
      [stage_name ++ "_" ++ stage_key config stage_name ih] ∧
    (r.reused = true ↔
      (∃ es, fs1.listing r.path = some es ∧ es ≠ [] ∧
        get_folder_hash recheckFs (input_path.getD base_path) = some ih)) ∧
    (r.reused = true → r.fs = fs1) ∧
    (r.reused = false → fs1.mkdir r.path = some r.fs) ∧
    (r.reused = true → get_folder_hash recheckFs (input_path.getD base_path) =
      get_folder_hash fs1 (input_path.getD base_path)) := by
  obtain ⟨h1, h2, h3, h4⟩ := make_stage_folder_spec hmk hih hr
  refine ⟨h1, h2, h3, h4, ?_⟩
  intro hre
  rcases h2.1 hre with ⟨es, _, _, hcur⟩
  rw [hcur, hih]

/-- Witness for the amended C1 at a concrete input: in the collision
filesystem with an unchanged recheck state, the call is a cache hit. -/
theorem make_stage_folder_cache_decision_witness :
    (⟨collisionFsA, ["root", "processed", "resize_d63371cc"], true⟩ : StageResult).path =
      (parentDir ["root", "data"] ++ ["processed"]) ++
        ["resize" ++ "_" ++ stage_key {} "resize" "f87864b4"] ∧
    ((⟨collisionFsA, ["root", "processed", "resize_d63371cc"], true⟩ : StageResult).reused = true ↔
      (∃ es, collisionFsA.listing
          (⟨collisionFsA, ["root", "processed", "resize_d63371cc"], true⟩ : StageResult).path =
            some es ∧ es ≠ [] ∧
        get_folder_hash collisionFsA ((none : Option FsPath).getD ["root", "data"]) =
          some "f87864b4")) ∧
    ((⟨collisionFsA, ["root", "processed", "resize_d63371cc"], true⟩ : StageResult).reused = true →
      (⟨collisionFsA, ["root", "processed", "resize_d63371cc"], true⟩ : StageResult).fs =
        collisionFsA) ∧
    ((⟨collisionFsA, ["root", "processed", "resize_d63371cc"], true⟩ : StageResult).reused = false →
      collisionFsA.mkdir
          (⟨collisionFsA, ["root", "processed", "resize_d63371cc"], true⟩ : StageResult).path =
        some (⟨collisionFsA, ["root", "processed", "resize_d63371cc"], true⟩ : StageResult).fs) ∧
    ((⟨collisionFsA, ["root", "processed", "resize_d63371cc"], true⟩ : StageResult).reused = true →
      get_folder_hash collisionFsA ((none : Option FsPath).getD ["root", "data"]) =
        get_folder_hash collisionFsA ((none : Option FsPath).getD ["root", "data"])) :=
  @make_stage_folder_cache_decision collisionFsA collisionFsA collisionFsA
    ["root", "data"] "resize" {} none "f87864b4"
    ⟨collisionFsA, ["root", "processed", "resize_d63371cc"], true⟩
    (by decide) (by decide) (by decide)

/-! ## C10: with an unchanged input listing the re-check always succeeds -/

/-- C10: within one `make_stage_folder` call, if the input directory's
listing is the same at the defensive re-check as after the processed-root
`mkdir`, the re-check comparison always succeeds: the call reuses exactly
when the candidate exists and is non-empty — the
`"Input changed, invalidating cache"` branch is unreachable for an unchanged
input. -/
theorem make_stage_folder_unchanged_input_always_hits
    {fs recheckFs fs1 : FS} {base_path : FsPath} {stage_name : String}
    {config : PipelineConfig} {input_path : Option FsPath} {r : StageResult}
    (hmk : fs.mkdir (parentDir base_path ++ ["processed"]) = some fs1)
    (hsame : recheckFs.listing (input_path.getD base_path) =
      fs1.listing (input_path.getD base_path))
    (hr : make_stage_folder fs recheckFs base_path stage_name config input_path = some r) :
    r.reused = true ↔ ∃ es, fs1.listing r.path = some es ∧ es ≠ [] := by
  obtain ⟨fs1', ih, hmk', hih'⟩ := make_stage_folder_some_inv hr
  rw [hmk] at hmk'
  cases hmk'
  obtain ⟨_, h2, _, _⟩ := make_stage_folder_spec hmk hih' hr
  have hre : get_folder_hash recheckFs (input_path.getD base_path) = some ih := by
    unfold get_folder_hash
    rw [hsame]
    exact hih'
  rw [h2]
  constructor
  · rintro ⟨es, hl, hne, _⟩
    exact ⟨es, hl, hne⟩
  · rintro ⟨es, hl, hne⟩
    exact ⟨es, hl, hne, hre⟩

/-- Witness for C10 at a concrete input: with an unchanged input directory
the concrete call reuses, and indeed its candidate exists non-empty. -/
theorem make_stage_folder_unchanged_input_always_hits_witness :
    (⟨collisionFsA, ["root", "processed", "resize_d63371cc"], true⟩ : StageResult).reused = true ↔
    ∃ es, collisionFsA.listing
        (⟨collisionFsA, ["root", "processed", "resize_d63371cc"], true⟩ : StageResult).path =
      some es ∧ es ≠ [] :=
  @make_stage_folder_unchanged_input_always_hits collisionFsA collisionFsA collisionFsA
    ["root", "data"] "resize" {} none
    ⟨collisionFsA, ["root", "processed", "resize_d63371cc"], true⟩
    (by decide) (by decide) (by decide)

/-! ## C4: where the candidate directory actually lives -/

/-- A minimal filesystem: `root/data` holds one file `a.jpg` of size 100
(fingerprint `9ef0fe4d`), and no processed root exists yet. -/
def plainFs : FS :=
  ⟨[(["root"], [Entry.subdir "data"]),
    (["root", "data"], [Entry.file "a.jpg" 100 0 []])]⟩

/-- `plainFs` after `mkdir root/processed`. -/
def plainFs1 : FS :=
  ⟨[(["root", "processed"], []),
    (["root"], [Entry.subdir "data", Entry.subdir "processed"]),
    (["root", "data"], [Entry.file "a.jpg" 100 0 []])]⟩

/-- `plainFs1` after `mkdir root/processed/resize_4ec2242b`. -/
def plainFs2 : FS :=
  ⟨[(["root", "processed", "resize_4ec2242b"], []),
    (["root", "processed"], [Entry.subdir "resize_4ec2242b"]),
    (["root"], [Entry.subdir "data", Entry.subdir "processed"]),
    (["root", "data"], [Entry.file "a.jpg" 100 0 []])]⟩

/-- Counterexample to C4 as stated: for `base_dir = root/data` the candidate
directory `make_stage_folder` computes and returns is
`root/processed/resize_4ec2242b` — under the *sibling* `processed` root next
to the base directory — and not
`base_dir/processed/... = root/data/processed/resize_4ec2242b`. -/
theorem make_stage_folder_path_not_under_base_dir :
    (make_stage_folder plainFs plainFs ["root", "data"] "resize" {} none).map
        StageResult.path = some ["root", "processed", "resize_4ec2242b"] ∧
    (["root", "processed", "resize_4ec2242b"] : FsPath) ≠
      ["root", "data", "processed", "resize_4ec2242b"] :=
  ⟨by decide, by decide⟩

/-- C4 (amended): the candidate cache directory is located at
`base_dir.parent/processed/{stage_name}_{key_hash}` — the `processed` root is
created next to the base directory, not inside it — and `key_hash` is the
8-character stage key, all of whose characters are lowercase hex digits. -/
theorem make_stage_folder_candidate_location
    {fs recheckFs fs1 : FS} {base_path : FsPath} {stage_name : String}
    {config : PipelineConfig} {input_path : Option FsPath} {ih : String} {r : StageResult}
    (hmk : fs.mkdir (parentDir base_path ++ ["processed"]) = some fs1)
    (hih : get_folder_hash fs1 (input_path.getD base_path) = some ih)
    (hr : make_stage_folder fs recheckFs base_path stage_name config input_path = some r) :
    r.path = parentDir base_path ++
      ["processed", stage_name ++ "_" ++ stage_key config stage_name ih] ∧
    (stage_key config stage_name ih).length = 8 ∧
    (∀ c ∈ (stage_key config stage_name ih).data, c ∈ hexDigits) := by
  obtain ⟨h1, _, _, _⟩ := make_stage_folder_spec hmk hih hr
  refine ⟨?_, stage_key_length config stage_name ih, stage_key_chars config stage_name ih⟩
  rw [h1, List.append_assoc]
  rfl

/-- Witness for the amended C4 at a concrete input: the concrete call places
its candidate at `root/processed/resize_4ec2242b` next to `root/data`. -/
theorem make_stage_folder_candidate_location_witness :
    (⟨plainFs2, ["root", "processed", "resize_4ec2242b"], false⟩ : StageResult).path =
      parentDir ["root", "data"] ++
        ["processed", "resize" ++ "_" ++ stage_key {} "resize" "9ef0fe4d"] ∧
    (stage_key {} "resize" "9ef0fe4d").length = 8 ∧
    (∀ c ∈ (stage_key {} "resize" "9ef0fe4d").data, c ∈ hexDigits) :=
  @make_stage_folder_candidate_location plainFs plainFs plainFs1
    ["root", "data"] "resize" {} none "9ef0fe4d"
    ⟨plainFs2, ["root", "processed", "resize_4ec2242b"], false⟩
    (by decide) (by decide) (by decide)

/-! ## C8: distinct stage keys and the truncated-hash collision -/

/-- An empty input directory (fingerprint `4f53cda1`) next to a processed
root that already holds non-empty candidates for stage names `a` and `b`. -/
def twoStageFs : FS :=
  ⟨[(["root"], [Entry.subdir "data", Entry.subdir "processed"]),
    (["root", "data"], []),
    (["root", "processed"], [Entry.subdir "a_bc6fcb68", Entry.subdir "b_edc27c30"]),
    (["root", "processed", "a_bc6fcb68"], [Entry.file "o" 1 0 []]),
    (["root", "processed", "b_edc27c30"], [Entry.file "o" 1 0 []])]⟩

/-- An empty input directory with a bare processed root, for the key
collision. -/
def collisionKeyFs : FS :=
  ⟨[(["root"], [Entry.subdir "data", Entry.subdir "processed"]),
    (["root", "data"], []),
    (["root", "processed"], [])]⟩

/-- Counterexample to C8 as stated: two *distinct* `(stage_name, config)`
pairs — the same stage `resize` with configs differing only in
`target_size` (43191 vs 87507) — and the same input fingerprint `4f53cda1`
produce the *same* candidate directory `root/processed/resize_4afd4478`: the
8-character truncated SHA-256 stage keys collide, so one entry can be
overwritten by the other combination. -/
theorem make_stage_folder_distinct_configs_same_path :
    ({ target_size := some 43191 } : PipelineConfig) ≠ { target_size := some 87507 } ∧
    (make_stage_folder collisionKeyFs collisionKeyFs ["root", "data"] "resize"
        { target_size := some 43191 } none).map StageResult.path =
      some ["root", "processed", "resize_4afd4478"] ∧
    (make_stage_folder collisionKeyFs collisionKeyFs ["root", "data"] "resize"
        { target_size := some 87507 } none).map StageResult.path =
      some ["root", "processed", "resize_4afd4478"] :=
  ⟨by decide, by decide, by decide⟩

/-- Strings are equal when their character lists are. -/
theorem strData_inj {s t : String} (h : s.data = t.data) : s = t := by
  cases s with
  | mk a =>
    cases t with
    | mk b => exact congrArg String.mk h

/-- C8 (amended): the candidate directory name is `{stage_name}_{key}` with a
fixed-width 8-character key, so two resolve calls over the same filesystem,
base directory and input with *different stage names* always produce
different candidate paths — but two distinct configs under the same stage
name may collide on the truncated 8-character key and map to the same
candidate directory (the counterexample), an accepted risk in the design. -/
theorem make_stage_folder_distinct_stage_names_distinct_paths
    {fs recheckFs : FS} {base_path : FsPath} {s1 s2 : String}
    {c1 c2 : PipelineConfig} {input_path : Option FsPath} {r1 r2 : StageResult}
    (h1 : make_stage_folder fs recheckFs base_path s1 c1 input_path = some r1)
    (h2 : make_stage_folder fs recheckFs base_path s2 c2 input_path = some r2)
    (hne : s1 ≠ s2) : r1.path ≠ r2.path := by
  obtain ⟨fs1, ih, hmk, hih⟩ := make_stage_folder_some_inv h1
  obtain ⟨p1, _, _, _⟩ := make_stage_folder_spec hmk hih h1
  obtain ⟨p2, _, _, _⟩ := make_stage_folder_spec hmk hih h2
  intro heq
  rw [p1, p2] at heq
  have hlast : s1 ++ "_" ++ stage_key c1 s1 ih = s2 ++ "_" ++ stage_key c2 s2 ih := by
    have := List.append_cancel_left heq
    simpa using this
  have hdata : s1.data ++ ('_' :: (stage_key c1 s1 ih).data) =
      s2.data ++ ('_' :: (stage_key c2 s2 ih).data) := by
    have := congrArg String.data hlast
    simpa [List.append_assoc] using this
  have hklen : ('_' :: (stage_key c1 s1 ih).data).length =
      ('_' :: (stage_key c2 s2 ih).data).length := by
    have k1 : (stage_key c1 s1 ih).data.length = 8 := stage_key_length c1 s1 ih
    have k2 : (stage_key c2 s2 ih).data.length = 8 := stage_key_length c2 s2 ih
    simp [k1, k2]
  have := List.append_inj' hdata hklen
  exact hne (strData_inj this.1)

/-- Witness for the amended C8 at a concrete input: stages `a` and `b` over
the same empty input resolve to the distinct candidates
`processed/a_bc6fcb68` and `processed/b_edc27c30`. -/
theorem make_stage_folder_distinct_stage_names_distinct_paths_witness :
    (⟨twoStageFs, ["root", "processed", "a_bc6fcb68"], true⟩ : StageResult).path ≠
    (⟨twoStageFs, ["root", "processed", "b_edc27c30"], true⟩ : StageResult).path :=
  @make_stage_folder_distinct_stage_names_distinct_paths twoStageFs twoStageFs
    ["root", "data"] "a" "b" {} {} none
    ⟨twoStageFs, ["root", "processed", "a_bc6fcb68"], true⟩
    ⟨twoStageFs, ["root", "processed", "b_edc27c30"], true⟩
    (by decide) (by decide) (by decide)

/-! ## C9: the cache resolve operation only ever creates directories -/

theorem filterMap_sizePair_append_subdirs (es : List Entry) (ds : List String) :
    (es ++ ds.map Entry.subdir).filterMap Entry.sizePair = es.filterMap Entry.sizePair := by
  rw [List.filterMap_append]
  have : (ds.map Entry.subdir).filterMap Entry.sizePair = [] := by
    induction ds with
    | nil => rfl
    | cons d t ih => simp [Entry.sizePair, ih]
  rw [this, List.append_nil]

/-- One `mkdir(exist_ok=True)` step never removes or rewrites anything: every
existing directory keeps its listing up to appended subdirectory entries, and
the only directory that can newly exist is the one created. -/
theorem mkdir_step_frame {fs fs' : FS} {p : FsPath} (h : fs.mkdir p = some fs') :
    (∀ q es, fs.listing q = some es →
      ∃ ds : List String, fs'.listing q = some (es ++ ds.map Entry.subdir)) ∧
    (∀ q, fs.listing q = none → fs'.listing q ≠ none → q = p) := by
  by_cases hex : fs.existsDir p = true
  · rw [mkdir_of_exists hex] at h
    cases h
    refine ⟨fun q es hq => ⟨[], by simpa using hq⟩, fun q hq hq' => absurd hq hq'⟩
  · have hexf : fs.existsDir p = false := by
      cases hb : fs.existsDir p
      · rfl
      · exact absurd hb hex
    have hnew := mkdir_listing_new hexf h
    constructor
    · intro q es hq
      by_cases hqp : q = p
      · subst hqp
        have : fs.existsDir q = true := by simp [FS.existsDir, hq]
        exact absurd this hex
      · by_cases hqpar : q = parentDir p
        · refine ⟨[lastName p], ?_⟩
          rw [hnew q, if_neg hqp, if_pos hqpar, hq]
          rfl
        · refine ⟨[], ?_⟩
          rw [hnew q, if_neg hqp, if_neg hqpar, hq]
          simp
    · intro q hq hq'
      by_cases hqp : q = p
      · exact hqp
      · by_cases hqpar : q = parentDir p
        · rw [hnew q, if_neg hqp, if_pos hqpar, hq] at hq'
          simp at hq'
        · rw [hnew q, if_neg hqp, if_neg hqpar] at hq'
          exact absurd hq hq'

/-- C9: `make_stage_folder` never deletes or modifies any existing file or
any existing directory's contents: every directory existing before the call
still exists afterwards with the same entries — in particular the same file
`(name, size)` tuples — except that a listing may gain appended
subdirectory entries for the directories the call creates; and the only
directories that can newly exist after the call are the `processed` root and
the returned candidate directory. All other cache entries and their contents
are left untouched. -/
theorem make_stage_folder_frame
    {fs recheckFs : FS} {base_path : FsPath} {stage_name : String}
    {config : PipelineConfig} {input_path : Option FsPath} {r : StageResult}
    (hr : make_stage_folder fs recheckFs base_path stage_name config input_path = some r) :
    (∀ q es, fs.listing q = some es →
      ∃ ds : List String, r.fs.listing q = some (es ++ ds.map Entry.subdir) ∧
        (es ++ ds.map Entry.subdir).filterMap Entry.sizePair = es.filterMap Entry.sizePair) ∧
    (∀ q, fs.listing q = none → r.fs.listing q ≠ none →
      q = parentDir base_path ++ ["processed"] ∨ q = r.path) := by
  obtain ⟨fs1, ih, hmk, hih⟩ := make_stage_folder_some_inv hr
  obtain ⟨_, _, hreuse, hnoreuse⟩ := make_stage_folder_spec hmk hih hr
  have step1 := mkdir_step_frame hmk
  cases hb : r.reused
  · have step2 := mkdir_step_frame (hnoreuse hb)
    constructor
    · intro q es hq
      obtain ⟨ds1, hq1⟩ := step1.1 q es hq
      obtain ⟨ds2, hq2⟩ := step2.1 q _ hq1
      refine ⟨ds1 ++ ds2, ?_, filterMap_sizePair_append_subdirs es (ds1 ++ ds2)⟩
      rw [hq2]
      simp [List.append_assoc]
    · intro q hq hq'
      by_cases h1q : fs1.listing q = none
      · exact Or.inr (step2.2 q h1q hq')
      · exact Or.inl (step1.2 q hq h1q)
  · have hfs : r.fs = fs1 := hreuse hb
    rw [hfs]
    constructor
    · intro q es hq
      obtain ⟨ds1, hq1⟩ := step1.1 q es hq
      exact ⟨ds1, hq1, filterMap_sizePair_append_subdirs es ds1⟩
    · intro q hq hq'
      exact Or.inl (step1.2 q hq hq')

/-- Witness for C9 at a concrete input: the concrete resolve call over
`plainFs` (which creates the processed root and the candidate) leaves every
pre-existing directory in place with its files unchanged. -/
theorem make_stage_folder_frame_witness :
    (∀ q es, plainFs.listing q = some es →
      ∃ ds : List String,
        (⟨plainFs2, ["root", "processed", "resize_4ec2242b"], false⟩ : StageResult).fs.listing q =
          some (es ++ ds.map Entry.subdir) ∧
        (es ++ ds.map Entry.subdir).filterMap Entry.sizePair = es.filterMap Entry.sizePair) ∧
    (∀ q, plainFs.listing q = none →
      (⟨plainFs2, ["root", "processed", "resize_4ec2242b"], false⟩ : StageResult).fs.listing q ≠
        none →
      q = parentDir ["root", "data"] ++ ["processed"] ∨
        q = (⟨plainFs2, ["root", "processed", "resize_4ec2242b"], false⟩ : StageResult).path) :=
  @make_stage_folder_frame plainFs plainFs ["root", "data"] "resize" {} none
    ⟨plainFs2, ["root", "processed", "resize_4ec2242b"], false⟩ (by decide)

/-! ## C5, C6, C7: the orchestrators run every stage, every time -/

/-- Concrete stage transforms that leave the filesystem unchanged, for
closed instances: the orchestrator's control flow never depends on what a
transform writes. -/
def idTransforms : StageTransforms :=
  ⟨fun _ _ s => s, fun _ _ _ _ _ s => s, fun _ _ _ s => s,
   fun _ _ s => s, fun _ _ s => s, fun _ _ _ s => s, fun _ _ _ s => s⟩

/-- A filesystem with just the pipeline input directory. -/
def oneDirFs : FS := ⟨[(["data"], [])]⟩

/-- The five stage transforms of `process_images`, in chain order. -/
def pipelineStages : List String :=
  ["select_best_images", "batch_resize_images", "face_crop.process_folder",
   "filter_single_face_images", "identify.process_folder"]

/-- The invocation trace of one successful `process_images` run: one
selection per comma-separated pattern, then the four downstream stages. -/
def expectedTrace (args : ProcessImagesArgs) : List String :=
  ((pySplit args.file_pattern ',').map pyStrip).map
      (fun _ => "select_best_images") ++
    ["batch_resize_images", "face_crop.process_folder",
     "filter_single_face_images", "identify.process_folder"]

/-- C7: for both orchestrators, when the declared root input directory does
not exist the run raises `ValueError("Input directory does not exist: ...")`
and aborts before any stage runs: no stage transform is invoked (the trace is
empty) and the filesystem is returned untouched (no stage output directory
is created). -/
theorem pipeline_missing_input_aborts_before_stages
    (t : StageTransforms) (fs : FS) (input_dir : FsPath)
    (args : ProcessImagesArgs) (zargs : ProcessImagesZoomFaceArgs)
    (h : fs.existsDir input_dir = false) :
    process_images t fs input_dir args =
      ⟨fs, [], some (.inputNotFound input_dir)⟩ ∧
    process_images_zoom_face t fs input_dir zargs =
      ⟨fs, [], some (.inputNotFound input_dir)⟩ := by
  constructor
  · simp [process_images, h]
  · simp [process_images_zoom_face, h]

/-- Witness for C7 at a concrete input: running either pipeline over an
empty filesystem with a missing input directory aborts with an empty trace. -/
theorem pipeline_missing_input_aborts_before_stages_witness :
    process_images idTransforms ⟨[]⟩ ["missing"] {} =
      ⟨⟨[]⟩, [], some (.inputNotFound ["missing"])⟩ ∧
    process_images_zoom_face idTransforms ⟨[]⟩ ["missing"] {} =
      ⟨⟨[]⟩, [], some (.inputNotFound ["missing"])⟩ :=
  pipeline_missing_input_aborts_before_stages idTransforms ⟨[]⟩ ["missing"] {} {}
    (by decide)

/-- Counterexample to C5 as stated: a second `process_images` run with
identical inputs and identical (default) config performs five stage
transform invocations, not zero — the orchestrator never consults the stage
cache and reports no reuse. -/
theorem process_images_second_run_invokes_every_transform :
    (process_images idTransforms
        (process_images idTransforms oneDirFs ["data"] {}).fs ["data"] {}).trace =
      ["select_best_images", "batch_resize_images", "face_crop.process_folder",
       "filter_single_face_images", "identify.process_folder"] ∧
    (process_images idTransforms
        (process_images idTransforms oneDirFs ["data"] {}).fs ["data"] {}).trace.length ≠ 0 :=
  ⟨by decide, by decide⟩

/-- C5 (amended): running `process_images` twice with identical inputs and
identical config invokes every stage transform on both runs: each successful
run's trace is exactly the full stage sequence (one selection per pattern
plus the four downstream stages), and that sequence is never empty. The
orchestrator performs no memoization: it never calls the cache resolve
operation and reports no stage as reused. -/
theorem process_images_no_memoization
    (t : StageTransforms) (fs : FS) (input_dir : FsPath) (args : ProcessImagesArgs)
    (h1 : fs.existsDir input_dir = true)
    (h2 : (process_images t fs input_dir args).fs.existsDir input_dir = true) :
    (process_images t fs input_dir args).trace = expectedTrace args ∧
    (process_images t (process_images t fs input_dir args).fs input_dir args).trace =
      expectedTrace args ∧
    expectedTrace args ≠ [] := by
  refine ⟨?_, ?_, ?_⟩
  · simp [process_images, h1, expectedTrace]
  · simp [process_images, h1] at h2
    simp [process_images, h1, h2, expectedTrace]
  · intro h
    have := congrArg List.length h
    simp [expectedTrace] at this
  

/-- Witness for the amended C5 at a concrete input: both runs over `oneDirFs`
with the default config trace the full five-stage sequence. -/
theorem process_images_no_memoization_witness :
    (process_images idTransforms oneDirFs ["data"] {}).trace = expectedTrace {} ∧
    (process_images idTransforms
        (process_images idTransforms oneDirFs ["data"] {}).fs ["data"] {}).trace =
      expectedTrace {} ∧
    expectedTrace {} ≠ [] :=
  process_images_no_memoization idTransforms oneDirFs ["data"] {} (by decide) (by decide)

/-- Counterexample to C6 as stated: after changing only `jpeg_quality` — the
configuration field consumed by stage 2 (resize) — stage 1's transform
(`select_best_images`) is invoked again on the next run: stage 1 does not
remain a cache hit. -/
theorem process_images_stage1_recomputes_after_stage2_config_change :
    ({ jpeg_quality := 90 } : ProcessImagesArgs) ≠ ({} : ProcessImagesArgs) ∧
    "select_best_images" ∈
      (process_images idTransforms
        (process_images idTransforms oneDirFs ["data"] {}).fs ["data"]
        { jpeg_quality := 90 }).trace :=
  ⟨by decide, by decide⟩

/-- C6 (amended): invalidation is monotonic and forward-only in the
degenerate sense the code realizes: every successful `process_images` run
invokes every stage transform (the trace is exactly the full stage
sequence), so whenever stage `i` is recomputed, every later stage `j > i`
is recomputed in that run as well. No stage is ever a cache hit — in
particular stage 1 recomputes even when only a stage-2 configuration field
changed. -/
theorem process_images_forward_only_invalidation
    (t : StageTransforms) (fs : FS) (input_dir : FsPath) (args : ProcessImagesArgs)
    (h1 : fs.existsDir input_dir = true) :
    (process_images t fs input_dir args).trace = expectedTrace args ∧
    (∀ i j : Nat, i ≤ j → j < pipelineStages.length →
      pipelineStages.getD i "" ∈ (process_images t fs input_dir args).trace →
      pipelineStages.getD j "" ∈ (process_images t fs input_dir args).trace) := by
  have htr : (process_images t fs input_dir args).trace = expectedTrace args := by
    simp [process_images, h1, expectedTrace]
  refine ⟨htr, ?_⟩
  intro i j hij hj hi
  rw [htr]
  rw [htr] at hi
  simp only [pipelineStages, List.length_cons, List.length_nil] at hj
  interval_cases j
  · have : i = 0 := by omega
    subst this
    exact hi
  all_goals
    exact List.mem_append_right _ (by simp [pipelineStages])

/-- Witness for the amended C6 at a concrete input: the concrete default-config
run traces the full sequence, and recomputation is forward-monotone on it. -/
theorem process_images_forward_only_invalidation_witness :
    (process_images idTransforms oneDirFs ["data"] {}).trace = expectedTrace {} ∧
    (∀ i j : Nat, i ≤ j → j < pipelineStages.length →
      pipelineStages.getD i "" ∈ (process_images idTransforms oneDirFs ["data"] {}).trace →
      pipelineStages.getD j "" ∈ (process_images idTransforms oneDirFs ["data"] {}).trace) :=
  process_images_forward_only_invalidation idTransforms oneDirFs ["data"] {} (by decide)
